import Mathlib

/-!
Shallow embedding of the loan-lifecycle engine of `src/app.py`
(daily-collection tracker).

The engine keeps three record sets — active loans, completed loans,
collection log — and exposes two mutations:

* `add_loan` (src/app.py lines 95-121): build a fresh loan record with a
  sequential identifier `f"L{len(active)+len(completed)+1:04d}"`, collected
  amount 0, remaining amount equal to the total, status `"Active"`, end date
  `now + days`, and append it to the active set.
* `add_collection` (src/app.py lines 123-152): find the first active row
  whose `Loan_ID` matches, add the amount to `Collected_Amount` and subtract
  it from `Remaining_Amount`; if the new remaining amount is ≤ 0, stamp
  `Completion_Date` and move the row from the active set to the end of the
  completed set; in every successful case append one collection record with
  identifier `f"C{len(collections)+1:05d}"`.  A missing identifier raises
  before anything is written.

Timestamps are abstracted as a `now : Nat` parameter (the code calls
`datetime.now()`); monetary amounts are `Int`.
-/

namespace DCT

/-- Decimal digit characters of a natural number, most significant first —
the decimal rendering behind Python's `f"{n:04d}"`.  The recursion is
structural on a fuel argument so the kernel can evaluate it. -/
def digitsAux : Nat → Nat → List Char → List Char
  | 0, _, acc => acc
  | fuel + 1, n, acc =>
    if n < 10 then Char.ofNat (48 + n) :: acc
    else digitsAux fuel (n / 10) (Char.ofNat (48 + n % 10) :: acc)

/-- Decimal digits of `n`, most significant first. -/
def natDigits (n : Nat) : List Char := digitsAux (n + 1) n []

/-- Left-pad a digit string with `'0'` up to width `w`, as Python's
zero-padded format specifiers `:04d` and `:05d` do. -/
def padDigits (w : Nat) (ds : List Char) : List Char :=
  List.replicate (w - ds.length) '0' ++ ds

/-- Loan identifier `f"L{n:04d}"` (src/app.py line 100). -/
def mkLoanId (n : Nat) : String := ⟨'L' :: padDigits 4 (natDigits n)⟩

/-- Collection identifier `f"C{n:05d}"` (src/app.py line 140). -/
def mkCollectionId (n : Nat) : String := ⟨'C' :: padDigits 5 (natDigits n)⟩

/-- Numeric value of a digit character, inverse of `Char.ofNat (48 + d)`. -/
def charVal (c : Char) : Nat := c.toNat - 48

/-- Decimal value of a digit string continued from accumulator `a`;
used to invert `padDigits w (natDigits n)`. -/
def decodeFrom (a : Nat) (l : List Char) : Nat :=
  l.foldl (fun x c => 10 * x + charVal c) a

/-- One row of the `Active_Loans` / `Completed_Loans` sheets, with the
column set written by `add_loan` (src/app.py lines 104-117) plus the
`Completion_Date` column stamped on completion (line 136). -/
structure Loan where
  Loan_ID : String
  Date : Nat
  Party_Name : String
  Mobile_Number : String
  Total_Amount : Int
  Daily_Amount : Int
  Total_Days : Nat
  End_Date : Nat
  Payment_Mode : String
  Collected_Amount : Int
  Remaining_Amount : Int
  Status : String
  Completion_Date : Option Nat
deriving DecidableEq, Repr

/-- One row of the `Collections` sheet (src/app.py lines 141-149). -/
structure Collection where
  Collection_ID : String
  Date : Nat
  Loan_ID : String
  Party_Name : String
  Amount_Collected : Int
  Days_Count : Nat
  Payment_Mode : String
deriving DecidableEq, Repr

/-- The persisted ledger: the three record sets written back together by
`save_all_data` (src/app.py lines 89-93). -/
structure Ledger where
  active : List Loan
  completed : List Loan
  collections : List Collection
deriving DecidableEq, Repr

/-- The ledger before any loan is created: all three sheets empty. -/
def emptyLedger : Ledger := { active := [], completed := [], collections := [] }

/-- Failure of `add_collection` when no active row carries the requested
identifier (the lookup `active[active["Loan_ID"] == loan_id].index[0]` on
src/app.py line 128 raises). -/
inductive AppError where
  | NotFoundError
deriving DecidableEq, Repr

/-- The amount update of src/app.py lines 131-132: add to the collected
amount and subtract from the remaining amount. -/
def applyAmount (amount : Int) (l : Loan) : Loan :=
  { l with
    Collected_Amount := l.Collected_Amount + amount
    Remaining_Amount := l.Remaining_Amount - amount }

/-- Stamp the completion timestamp (src/app.py line 136). -/
def completeLoan (now : Nat) (l : Loan) : Loan :=
  { l with Completion_Date := some now }

/-- `add_loan` (src/app.py lines 95-121): build the new loan row and append
it to the active set; the second component is the returned identifier. -/
def add_loan (st : Ledger) (party mobile : String) (total daily : Int)
    (days : Nat) (mode : String) (now : Nat) : Ledger × String :=
  let loan_id := mkLoanId (st.active.length + st.completed.length + 1)
  let new : Loan :=
    { Loan_ID := loan_id
      Date := now
      Party_Name := party
      Mobile_Number := mobile
      Total_Amount := total
      Daily_Amount := daily
      Total_Days := days
      End_Date := now + days
      Payment_Mode := mode
      Collected_Amount := 0
      Remaining_Amount := total
      Status := "Active"
      Completion_Date := none }
  ({ st with active := st.active ++ [new] }, loan_id)

/-- The row update at the first active row whose `Loan_ID` matches
(src/app.py lines 128-138): update the amounts in place; when the new
remaining amount is ≤ 0, drop the row from the active list and emit it —
completion-stamped — for the completed list.  Returns the new active list,
the rows moved to the completed list, and the matched row as it was read
(its party name feeds the collection record).  `none` when no row matches. -/
def collectFrom (loan_id : String) (amount : Int) (now : Nat) :
    List Loan → Option (List Loan × List Loan × Loan)
  | [] => none
  | l :: rest =>
    if l.Loan_ID == loan_id then
      let l1 := applyAmount amount l
      if l1.Remaining_Amount ≤ 0 then some (rest, [completeLoan now l1], l)
      else some (l1 :: rest, [], l)
    else
      match collectFrom loan_id amount now rest with
      | none => none
      | some (act, mv, l0) => some (l :: act, mv, l0)

/-- `add_collection` (src/app.py lines 123-152): locate the active loan,
apply the amount, move it to the completed set when the remaining amount
drops to ≤ 0, and append one collection record.  The lookup failure on
line 128 surfaces as `NotFoundError` with nothing persisted. -/
def add_collection (st : Ledger) (loan_id : String) (amount : Int)
    (days_count : Nat) (payment_mode : String) (now : Nat) :
    Except AppError Ledger :=
  match collectFrom loan_id amount now st.active with
  | none => .error .NotFoundError
  | some (act, mv, l0) =>
    .ok { active := act
          completed := st.completed ++ mv
          collections := st.collections ++
            [{ Collection_ID := mkCollectionId (st.collections.length + 1)
               Date := now
               Loan_ID := loan_id
               Party_Name := l0.Party_Name
               Amount_Collected := amount
               Days_Count := days_count
               Payment_Mode := payment_mode }] }

/-- Combined number of loan rows, active plus completed — the count that
feeds the next loan identifier (src/app.py line 100). -/
def loanCount (st : Ledger) : Nat := st.active.length + st.completed.length

/-- Number of rows of `ls` carrying the identifier `lid`. -/
def countId (lid : String) (ls : List Loan) : Nat :=
  (ls.filter (fun x => x.Loan_ID == lid)).length

/-- The bookkeeping invariant of §3 of the design: every loan row, active or
completed, has remaining amount = total amount − collected amount. -/
def ledgerAmountInv (st : Ledger) : Prop :=
  ∀ l ∈ st.active ++ st.completed,
    l.Remaining_Amount = l.Total_Amount - l.Collected_Amount

/-- One user-visible mutation of the ledger. -/
inductive Op where
  | give (party mobile : String) (total daily : Int) (days : Nat)
      (mode : String) (now : Nat)
  | collect (loan_id : String) (amount : Int) (days_count : Nat)
      (payment_mode : String) (now : Nat)

/-- Apply one mutation; a failed collection leaves the persisted ledger as
it was (the exception propagates before any sheet is written). -/
def applyOp (st : Ledger) : Op → Ledger
  | .give party mobile total daily days mode now =>
    (add_loan st party mobile total daily days mode now).1
  | .collect loan_id amount days_count payment_mode now =>
    match add_collection st loan_id amount days_count payment_mode now with
    | .ok st2 => st2
    | .error _ => st

/-- Run a sequence of mutations. -/
def run (st : Ledger) (ops : List Op) : Ledger := ops.foldl applyOp st

/-- The loan identifiers returned by the `give` operations of a run, in
order of creation. -/
def runIds (st : Ledger) : List Op → List String
  | [] => []
  | op :: ops =>
    match op with
    | .give party mobile total daily days mode now =>
      (add_loan st party mobile total daily days mode now).2 ::
        runIds (applyOp st op) ops
    | .collect _ _ _ _ _ => runIds (applyOp st op) ops

/-- Every loan row, in whichever record set, carries the literal status
`"Active"` — the value written once at creation (src/app.py line 116) and
never touched again, not even on the move to the completed set. -/
def statusAllActive (st : Ledger) : Prop :=
  (∀ l ∈ st.active, l.Status = "Active") ∧
  (∀ l ∈ st.completed, l.Status = "Active")

/-- Sample loan used by the concrete witnesses. -/
def loanA : Loan :=
  { Loan_ID := "L0001"
    Date := 0
    Party_Name := "Ravi"
    Mobile_Number := "9876543210"
    Total_Amount := 1000
    Daily_Amount := 100
    Total_Days := 10
    End_Date := 10
    Payment_Mode := "Cash"
    Collected_Amount := 0
    Remaining_Amount := 1000
    Status := "Active"
    Completion_Date := none }

/-- Sample one-loan ledger used by the concrete witnesses. -/
def ledgerA : Ledger := { active := [loanA], completed := [], collections := [] }

/-! Lemmas about the decimal rendering: `padDigits w (natDigits n)` is
inverted by `decodeFrom 0`, so the identifier builders are injective. -/

theorem decodeFrom_nil (a : Nat) : decodeFrom a [] = a := rfl

theorem decodeFrom_cons (a : Nat) (c : Char) (l : List Char) :
    decodeFrom a (c :: l) = decodeFrom (10 * a + charVal c) l := rfl

theorem charVal_ofNat (d : Nat) (hd : d < 10) :
    charVal (Char.ofNat (48 + d)) = d := by
  interval_cases d <;> decide

theorem decodeFrom_digitsAux (fuel : Nat) :
    ∀ n acc a, n < fuel →
      ∃ B, n < B ∧
        decodeFrom a (digitsAux fuel n acc) = decodeFrom (a * B + n) acc := by
  induction fuel with
  | zero => intro n acc a h; omega
  | succ fuel ih =>
    intro n acc a h
    by_cases hn : n < 10
    · refine ⟨10, hn, ?_⟩
      simp only [digitsAux, if_pos hn, decodeFrom_cons, charVal_ofNat n hn]
      have h10 : a * 10 + n = 10 * a + n := by ring
      rw [h10]
    · have hdiv : n / 10 < fuel := by omega
      obtain ⟨B, hB, heq⟩ := ih (n / 10) (Char.ofNat (48 + n % 10) :: acc) a hdiv
      refine ⟨10 * B, by omega, ?_⟩
      simp only [digitsAux, if_neg hn]
      rw [heq, decodeFrom_cons, charVal_ofNat (n % 10) (by omega)]
      have hmul : a * (10 * B) = 10 * (a * B) := by ring
      rw [hmul]
      generalize a * B = x
      have harg : 10 * (x + n / 10) + n % 10 = 10 * x + n := by omega
      rw [harg]

theorem decodeFrom_natDigits (n : Nat) : decodeFrom 0 (natDigits n) = n := by
  obtain ⟨B, _, heq⟩ := decodeFrom_digitsAux (n + 1) n [] 0 (Nat.lt_succ_self n)
  simpa [natDigits, decodeFrom_nil] using heq

theorem charVal_zero : charVal '0' = 0 := rfl

theorem decodeFrom_replicate_zero (k : Nat) (l : List Char) :
    decodeFrom 0 (List.replicate k '0' ++ l) = decodeFrom 0 l := by
  induction k with
  | zero => simp
  | succ k ih =>
    simpa [List.replicate_succ, decodeFrom_cons, charVal_zero] using ih

theorem decode_padDigits (w n : Nat) :
    decodeFrom 0 (padDigits w (natDigits n)) = n := by
  rw [padDigits, decodeFrom_replicate_zero, decodeFrom_natDigits]

theorem mkLoanId_inj (m n : Nat) (h : mkLoanId m = mkLoanId n) : m = n := by
  simp only [mkLoanId] at h
  injection h with h
  injection h with hc h
  have h2 := congrArg (decodeFrom 0) h
  rwa [decode_padDigits, decode_padDigits] at h2

/-! Lemmas about `collectFrom`: its exact value on a decomposed active
list, its failure condition, and what its outputs are made of. -/

theorem collectFrom_eq_none (loan_id : String) (amount : Int) (now : Nat)
    (act : List Loan) (habs : ∀ x ∈ act, x.Loan_ID ≠ loan_id) :
    collectFrom loan_id amount now act = none := by
  induction act with
  | nil => rfl
  | cons l rest ih =>
    have hl : (l.Loan_ID == loan_id) = false := by
      simpa using habs l (List.mem_cons_self l rest)
    simp only [collectFrom, hl, Bool.false_eq_true, if_false]
    rw [ih fun x hx => habs x (List.mem_cons_of_mem l hx)]

theorem collectFrom_found (loan_id : String) (amount : Int) (now : Nat)
    (pre post : List Loan) (l : Loan)
    (hpre : ∀ x ∈ pre, x.Loan_ID ≠ loan_id) (hid : l.Loan_ID = loan_id) :
    collectFrom loan_id amount now (pre ++ l :: post) =
      (if (applyAmount amount l).Remaining_Amount ≤ 0 then
        some (pre ++ post, [completeLoan now (applyAmount amount l)], l)
      else
        some (pre ++ applyAmount amount l :: post, [], l)) := by
  induction pre with
  | nil =>
    have hl : (l.Loan_ID == loan_id) = true := by simpa using hid
    simp only [List.nil_append, collectFrom, hl, if_true]
  | cons p pre ih =>
    have hp : (p.Loan_ID == loan_id) = false := by
      simpa using hpre p (List.mem_cons_self p pre)
    have ih2 := ih fun x hx => hpre x (List.mem_cons_of_mem p hx)
    simp only [List.cons_append, collectFrom, hp, Bool.false_eq_true, if_false,
      List.append_eq]
    rw [ih2]
    by_cases hrem : (applyAmount amount l).Remaining_Amount ≤ 0 <;>
      simp [hrem]

theorem collectFrom_mem (loan_id : String) (amount : Int) (now : Nat) :
    ∀ act act2 mv l0,
      collectFrom loan_id amount now act = some (act2, mv, l0) →
      l0 ∈ act ∧ l0.Loan_ID = loan_id ∧
        (∀ x ∈ act2, x ∈ act ∨ x = applyAmount amount l0) ∧
        (∀ x ∈ mv, x = completeLoan now (applyAmount amount l0)) ∧
        act2.length + mv.length = act.length := by
  intro act
  induction act with
  | nil => intro act2 mv l0 h; simp [collectFrom] at h
  | cons l rest ih =>
    intro act2 mv l0 h
    by_cases hl : (l.Loan_ID == loan_id) = true
    · have hide : l.Loan_ID = loan_id := by simpa using hl
      simp only [collectFrom, hl, if_true] at h
      by_cases hrem : (applyAmount amount l).Remaining_Amount ≤ 0
      · rw [if_pos hrem] at h
        simp only [Option.some.injEq, Prod.mk.injEq] at h
        obtain ⟨h1, h2, h3⟩ := h
        subst h1; subst h2; subst h3
        refine ⟨List.mem_cons_self _ _, hide, ?_, ?_, by simp⟩
        · exact fun x hx => Or.inl (List.mem_cons_of_mem l hx)
        · intro x hx; simpa using hx
      · rw [if_neg hrem] at h
        simp only [Option.some.injEq, Prod.mk.injEq] at h
        obtain ⟨h1, h2, h3⟩ := h
        subst h1; subst h2; subst h3
        refine ⟨List.mem_cons_self _ _, hide, ?_, by simp, by simp⟩
        intro x hx
        rcases List.mem_cons.1 hx with hx | hx
        · exact Or.inr hx
        · exact Or.inl (List.mem_cons_of_mem l hx)
    · simp only [collectFrom, hl, Bool.false_eq_true, if_false] at h
      cases hrec : collectFrom loan_id amount now rest with
      | none => rw [hrec] at h; simp at h
      | some out =>
        obtain ⟨act3, mv3, l3⟩ := out
        rw [hrec] at h
        simp only [Option.some.injEq, Prod.mk.injEq] at h
        obtain ⟨h1, h2, h3⟩ := h
        obtain ⟨hmem, hid3, hsub, hmv, hlen⟩ := ih act3 mv3 l3 hrec
        subst h1; subst h2; subst h3
        refine ⟨List.mem_cons_of_mem l hmem, hid3, ?_, hmv,
          by simp only [List.length_cons]; omega⟩
        intro x hx
        rcases List.mem_cons.1 hx with hx | hx
        · exact Or.inl (by simp [hx])
        · rcases hsub x hx with hx2 | hx2
          · exact Or.inl (List.mem_cons_of_mem l hx2)
          · exact Or.inr hx2

/-! Lemmas about `add_collection`, `applyOp` and `run`. -/

theorem add_collection_found (st : Ledger) (pre post : List Loan) (l : Loan)
    (loan_id : String) (amount : Int) (days_count : Nat) (payment_mode : String)
    (now : Nat)
    (hact : st.active = pre ++ l :: post)
    (hpre : ∀ x ∈ pre, x.Loan_ID ≠ loan_id) (hid : l.Loan_ID = loan_id) :
    add_collection st loan_id amount days_count payment_mode now =
      .ok { active :=
              if (applyAmount amount l).Remaining_Amount ≤ 0 then pre ++ post
              else pre ++ applyAmount amount l :: post
            completed :=
              if (applyAmount amount l).Remaining_Amount ≤ 0 then
                st.completed ++ [completeLoan now (applyAmount amount l)]
              else st.completed
            collections := st.collections ++
              [{ Collection_ID := mkCollectionId (st.collections.length + 1)
                 Date := now
                 Loan_ID := loan_id
                 Party_Name := l.Party_Name
                 Amount_Collected := amount
                 Days_Count := days_count
                 Payment_Mode := payment_mode }] } := by
  unfold add_collection
  rw [hact, collectFrom_found loan_id amount now pre post l hpre hid]
  by_cases hrem : (applyAmount amount l).Remaining_Amount ≤ 0
  · simp only [if_pos hrem]
  · simp only [if_neg hrem, List.append_nil]

theorem add_collection_completes (st : Ledger) (pre post : List Loan) (l : Loan)
    (loan_id : String) (amount : Int) (days_count : Nat) (payment_mode : String)
    (now : Nat)
    (hact : st.active = pre ++ l :: post)
    (hpre : ∀ x ∈ pre, x.Loan_ID ≠ loan_id) (hid : l.Loan_ID = loan_id)
    (hrem : (applyAmount amount l).Remaining_Amount ≤ 0) :
    add_collection st loan_id amount days_count payment_mode now =
      .ok { active := pre ++ post
            completed := st.completed ++ [completeLoan now (applyAmount amount l)]
            collections := st.collections ++
              [{ Collection_ID := mkCollectionId (st.collections.length + 1)
                 Date := now
                 Loan_ID := loan_id
                 Party_Name := l.Party_Name
                 Amount_Collected := amount
                 Days_Count := days_count
                 Payment_Mode := payment_mode }] } := by
  rw [add_collection_found st pre post l loan_id amount days_count payment_mode
    now hact hpre hid, if_pos hrem, if_pos hrem]

theorem add_collection_partial (st : Ledger) (pre post : List Loan) (l : Loan)
    (loan_id : String) (amount : Int) (days_count : Nat) (payment_mode : String)
    (now : Nat)
    (hact : st.active = pre ++ l :: post)
    (hpre : ∀ x ∈ pre, x.Loan_ID ≠ loan_id) (hid : l.Loan_ID = loan_id)
    (hrem : ¬ (applyAmount amount l).Remaining_Amount ≤ 0) :
    add_collection st loan_id amount days_count payment_mode now =
      .ok { active := pre ++ applyAmount amount l :: post
            completed := st.completed
            collections := st.collections ++
              [{ Collection_ID := mkCollectionId (st.collections.length + 1)
                 Date := now
                 Loan_ID := loan_id
                 Party_Name := l.Party_Name
                 Amount_Collected := amount
                 Days_Count := days_count
                 Payment_Mode := payment_mode }] } := by
  rw [add_collection_found st pre post l loan_id amount days_count payment_mode
    now hact hpre hid, if_neg hrem, if_neg hrem]

theorem add_collection_ok (st : Ledger) (loan_id : String) (amount : Int)
    (days_count : Nat) (payment_mode : String) (now : Nat) (st2 : Ledger)
    (h : add_collection st loan_id amount days_count payment_mode now = .ok st2) :
    ∃ act mv l0,
      collectFrom loan_id amount now st.active = some (act, mv, l0) ∧
      st2.active = act ∧ st2.completed = st.completed ++ mv ∧
      st2.collections = st.collections ++
        [{ Collection_ID := mkCollectionId (st.collections.length + 1)
           Date := now
           Loan_ID := loan_id
           Party_Name := l0.Party_Name
           Amount_Collected := amount
           Days_Count := days_count
           Payment_Mode := payment_mode }] := by
  unfold add_collection at h
  cases hc : collectFrom loan_id amount now st.active with
  | none => rw [hc] at h; exact absurd h (by simp)
  | some out =>
    obtain ⟨act, mv, l0⟩ := out
    rw [hc] at h
    simp only [Except.ok.injEq] at h
    exact ⟨act, mv, l0, rfl, by rw [← h], by rw [← h], by rw [← h]⟩

theorem applyOp_collect_ok (st st2 : Ledger) (loan_id : String) (amount : Int)
    (days_count : Nat) (payment_mode : String) (now : Nat)
    (h : add_collection st loan_id amount days_count payment_mode now = .ok st2) :
    applyOp st (.collect loan_id amount days_count payment_mode now) = st2 := by
  simp [applyOp, h]

theorem applyOp_collect_err (st : Ledger) (loan_id : String) (amount : Int)
    (days_count : Nat) (payment_mode : String) (now : Nat) (e : AppError)
    (h : add_collection st loan_id amount days_count payment_mode now = .error e) :
    applyOp st (.collect loan_id amount days_count payment_mode now) = st := by
  simp [applyOp, h]

theorem run_preserves (P : Ledger → Prop)
    (hstep : ∀ st op, P st → P (applyOp st op)) :
    ∀ ops st, P st → P (run st ops) := by
  intro ops
  induction ops with
  | nil => intro st h; exact h
  | cons op ops ih => intro st h; exact ih (applyOp st op) (hstep st op h)

/-! Preservation of the amount invariant and of the status field. -/

theorem ledgerAmountInv_add_loan (st : Ledger) (party mobile : String)
    (total daily : Int) (days : Nat) (mode : String) (now : Nat)
    (hinv : ledgerAmountInv st) :
    ledgerAmountInv (add_loan st party mobile total daily days mode now).1 := by
  intro l hl
  simp only [add_loan, List.mem_append, List.mem_singleton] at hl
  rcases hl with (hl | hl) | hl
  · exact hinv l (List.mem_append.2 (Or.inl hl))
  · subst hl; simp
  · exact hinv l (List.mem_append.2 (Or.inr hl))

theorem ledgerAmountInv_add_collection (st st2 : Ledger) (loan_id : String)
    (amount : Int) (days_count : Nat) (payment_mode : String) (now : Nat)
    (hinv : ledgerAmountInv st)
    (h : add_collection st loan_id amount days_count payment_mode now = .ok st2) :
    ledgerAmountInv st2 := by
  obtain ⟨act, mv, l0, hcf, ha, hcm, _⟩ :=
    add_collection_ok st loan_id amount days_count payment_mode now st2 h
  obtain ⟨hl0, _, hsub, hmv, _⟩ := collectFrom_mem loan_id amount now _ _ _ _ hcf
  intro x hx
  rcases List.mem_append.1 hx with hx | hx
  · rw [ha] at hx
    rcases hsub x hx with hx2 | hx2
    · exact hinv x (List.mem_append.2 (Or.inl hx2))
    · subst hx2
      have h0 := hinv l0 (List.mem_append.2 (Or.inl hl0))
      simp only [applyAmount]
      omega
  · rw [hcm] at hx
    rcases List.mem_append.1 hx with hx | hx
    · exact hinv x (List.mem_append.2 (Or.inr hx))
    · have hx2 := hmv x hx
      subst hx2
      have h0 := hinv l0 (List.mem_append.2 (Or.inl hl0))
      simp only [completeLoan, applyAmount]
      omega

theorem ledgerAmountInv_applyOp (st : Ledger) (op : Op)
    (hinv : ledgerAmountInv st) : ledgerAmountInv (applyOp st op) := by
  cases op with
  | give party mobile total daily days mode now =>
    exact ledgerAmountInv_add_loan st party mobile total daily days mode now hinv
  | collect loan_id amount days_count payment_mode now =>
    cases hc : add_collection st loan_id amount days_count payment_mode now with
    | error e =>
      rw [applyOp_collect_err st loan_id amount days_count payment_mode now e hc]
      exact hinv
    | ok st2 =>
      rw [applyOp_collect_ok st st2 loan_id amount days_count payment_mode now hc]
      exact ledgerAmountInv_add_collection st st2 loan_id amount days_count
        payment_mode now hinv hc

theorem statusAllActive_applyOp (st : Ledger) (op : Op)
    (h : statusAllActive st) : statusAllActive (applyOp st op) := by
  obtain ⟨hact, hcmp⟩ := h
  cases op with
  | give party mobile total daily days mode now =>
    constructor
    · intro l hl
      simp only [applyOp, add_loan, List.mem_append, List.mem_singleton] at hl
      rcases hl with hl | hl
      · exact hact l hl
      · subst hl; rfl
    · intro l hl; exact hcmp l hl
  | collect loan_id amount days_count payment_mode now =>
    cases hc : add_collection st loan_id amount days_count payment_mode now with
    | error e =>
      rw [applyOp_collect_err st loan_id amount days_count payment_mode now e hc]
      exact ⟨hact, hcmp⟩
    | ok st2 =>
      rw [applyOp_collect_ok st st2 loan_id amount days_count payment_mode now hc]
      obtain ⟨act, mv, l0, hcf, ha, hcm, _⟩ :=
        add_collection_ok st loan_id amount days_count payment_mode now st2 hc
      obtain ⟨hl0, _, hsub, hmv, _⟩ :=
        collectFrom_mem loan_id amount now _ _ _ _ hcf
      constructor
      · intro l hl
        rw [ha] at hl
        rcases hsub l hl with h2 | h2
        · exact hact l h2
        · subst h2
          simpa [applyAmount] using hact l0 hl0
      · intro l hl
        rw [hcm] at hl
        rcases List.mem_append.1 hl with h2 | h2
        · exact hcmp l h2
        · have h3 := hmv l h2
          subst h3
          simpa [completeLoan, applyAmount] using hact l0 hl0

/-! Lemmas for the loan-identifier development. -/

theorem add_loan_snd (st : Ledger) (party mobile : String) (total daily : Int)
    (days : Nat) (mode : String) (now : Nat) :
    (add_loan st party mobile total daily days mode now).2 =
      mkLoanId (loanCount st + 1) := rfl

theorem loanCount_add_loan (st : Ledger) (party mobile : String)
    (total daily : Int) (days : Nat) (mode : String) (now : Nat) :
    loanCount (add_loan st party mobile total daily days mode now).1 =
      loanCount st + 1 := by
  simp only [add_loan, loanCount, List.length_append, List.length_singleton]
  omega

theorem loanCount_collect (st : Ledger) (loan_id : String) (amount : Int)
    (days_count : Nat) (payment_mode : String) (now : Nat) :
    loanCount (applyOp st (.collect loan_id amount days_count payment_mode now)) =
      loanCount st := by
  cases hc : add_collection st loan_id amount days_count payment_mode now with
  | error e =>
    rw [applyOp_collect_err st loan_id amount days_count payment_mode now e hc]
  | ok st2 =>
    rw [applyOp_collect_ok st st2 loan_id amount days_count payment_mode now hc]
    obtain ⟨act, mv, l0, hcf, ha, hcm, _⟩ :=
      add_collection_ok st loan_id amount days_count payment_mode now st2 hc
    obtain ⟨_, _, _, _, hlen⟩ := collectFrom_mem loan_id amount now _ _ _ _ hcf
    simp only [loanCount, ha, hcm, List.length_append]
    omega

theorem runIds_ge (ops : List Op) :
    ∀ st s, s ∈ runIds st ops → ∃ k, loanCount st + 1 ≤ k ∧ s = mkLoanId k := by
  induction ops with
  | nil => intro st s h; simp [runIds] at h
  | cons op ops ih =>
    intro st s h
    cases op with
    | give party mobile total daily days mode now =>
      simp only [runIds] at h
      rcases List.mem_cons.1 h with h | h
      · refine ⟨loanCount st + 1, le_refl _, ?_⟩
        rw [h, add_loan_snd]
      · obtain ⟨k, hk, hs⟩ := ih _ s h
        refine ⟨k, ?_, hs⟩
        have h2 : loanCount (applyOp st
            (Op.give party mobile total daily days mode now)) = loanCount st + 1 :=
          loanCount_add_loan st party mobile total daily days mode now
        omega
    | collect loan_id amount days_count payment_mode now =>
      simp only [runIds] at h
      obtain ⟨k, hk, hs⟩ := ih _ s h
      refine ⟨k, ?_, hs⟩
      have h2 := loanCount_collect st loan_id amount days_count payment_mode now
      omega

theorem runIds_nodup (ops : List Op) : ∀ st, (runIds st ops).Nodup := by
  induction ops with
  | nil => intro st; simp [runIds]
  | cons op ops ih =>
    intro st
    cases op with
    | collect loan_id amount days_count payment_mode now =>
      simp only [runIds]
      exact ih _
    | give party mobile total daily days mode now =>
      simp only [runIds]
      refine List.nodup_cons.2 ⟨?_, ih _⟩
      intro hmem
      obtain ⟨k, hk, hs⟩ := runIds_ge ops _ _ hmem
      rw [add_loan_snd] at hs
      have h3 : loanCount st + 1 = k := mkLoanId_inj _ _ hs
      have h2 : loanCount (applyOp st
          (Op.give party mobile total daily days mode now)) = loanCount st + 1 :=
        loanCount_add_loan st party mobile total daily days mode now
      omega

/-! The claims. -/

/-- C1: when a collection's amount brings the remaining amount to ≤ 0,
`add_collection` stamps a completion timestamp on the updated loan record,
appends that record to the Completed set exactly once, removes the loan from
the Active set, and — when the collected amounts sum to exactly the total —
leaves the remaining amount exactly 0. -/
theorem C1_full_payment_completes (st : Ledger) (pre post : List Loan) (l : Loan)
    (loan_id : String) (amount : Int) (days_count : Nat) (payment_mode : String)
    (now : Nat)
    (hact : st.active = pre ++ l :: post)
    (hpre : ∀ x ∈ pre, x.Loan_ID ≠ loan_id) (hid : l.Loan_ID = loan_id)
    (hpost : ∀ x ∈ post, x.Loan_ID ≠ loan_id)
    (hcomp : ∀ x ∈ st.completed, x.Loan_ID ≠ loan_id)
    (hle : l.Remaining_Amount - amount ≤ 0) :
    ∃ st2, add_collection st loan_id amount days_count payment_mode now = .ok st2 ∧
      st2.completed = st.completed ++ [completeLoan now (applyAmount amount l)] ∧
      (completeLoan now (applyAmount amount l)).Completion_Date = some now ∧
      countId loan_id st2.completed = 1 ∧
      (∀ x ∈ st2.active, x.Loan_ID ≠ loan_id) ∧
      (l.Remaining_Amount = l.Total_Amount - l.Collected_Amount →
        l.Collected_Amount + amount = l.Total_Amount →
        (completeLoan now (applyAmount amount l)).Remaining_Amount = 0) := by
  have hrem : (applyAmount amount l).Remaining_Amount ≤ 0 := hle
  refine ⟨_, add_collection_completes st pre post l loan_id amount days_count
    payment_mode now hact hpre hid hrem, rfl, rfl, ?_, ?_, ?_⟩
  · show countId loan_id
      (st.completed ++ [completeLoan now (applyAmount amount l)]) = 1
    unfold countId
    rw [List.filter_append]
    have h1 : st.completed.filter (fun x => x.Loan_ID == loan_id) = [] := by
      rw [List.filter_eq_nil_iff]
      intro a ha
      simpa using hcomp a ha
    have h2 : ((completeLoan now (applyAmount amount l)).Loan_ID == loan_id)
        = true := by
      simpa using hid
    simp [h1, h2]
  · intro x hx
    have hx2 : x ∈ pre ++ post := hx
    rcases List.mem_append.1 hx2 with h2 | h2
    · exact hpre x h2
    · exact hpost x h2
  · intro h1 h2
    show l.Remaining_Amount - amount = 0
    omega

theorem C1_full_payment_completes_witness :
    (loanA.Remaining_Amount - 1000 ≤ 0) ∧
    ∃ st2, add_collection ledgerA "L0001" 1000 10 "Cash" 5 = .ok st2 ∧
      st2.completed = ledgerA.completed ++ [completeLoan 5 (applyAmount 1000 loanA)] ∧
      (completeLoan 5 (applyAmount 1000 loanA)).Completion_Date = some 5 ∧
      countId "L0001" st2.completed = 1 ∧
      (∀ x ∈ st2.active, x.Loan_ID ≠ "L0001") ∧
      (loanA.Remaining_Amount = loanA.Total_Amount - loanA.Collected_Amount →
        loanA.Collected_Amount + 1000 = loanA.Total_Amount →
        (completeLoan 5 (applyAmount 1000 loanA)).Remaining_Amount = 0) :=
  ⟨by decide,
    C1_full_payment_completes ledgerA [] [] loanA "L0001" 1000 10 "Cash" 5 rfl
      (by simp) rfl (by simp) (by simp [ledgerA]) (by decide)⟩

/-- C2: every loan row in either record set satisfies remaining amount =
total amount − collected amount: `add_loan` establishes the invariant
(collected 0, remaining = total), `add_collection` preserves it (both fields
move by the same amount), and it holds after every run from the empty
ledger. -/
theorem C2_remaining_amount_invariant :
    (∀ st party mobile total daily days mode now, ledgerAmountInv st →
      ledgerAmountInv (add_loan st party mobile total daily days mode now).1) ∧
    (∀ st st2 loan_id amount days_count payment_mode now, ledgerAmountInv st →
      add_collection st loan_id amount days_count payment_mode now = .ok st2 →
      ledgerAmountInv st2) ∧
    (∀ ops, ledgerAmountInv (run emptyLedger ops)) := by
  refine ⟨?_, ?_, ?_⟩
  · intro st party mobile total daily days mode now hinv
    exact ledgerAmountInv_add_loan st party mobile total daily days mode now hinv
  · intro st st2 loan_id amount days_count payment_mode now hinv h
    exact ledgerAmountInv_add_collection st st2 loan_id amount days_count
      payment_mode now hinv h
  · intro ops
    refine run_preserves ledgerAmountInv ledgerAmountInv_applyOp ops emptyLedger ?_
    intro l hl
    simp [emptyLedger] at hl

/-- C3: a collection that leaves the remaining amount strictly positive
keeps the loan in the Active set (updated in place), puts nothing with its
identifier into the Completed set, and moves the collected and remaining
amounts by exactly the collection amount. -/
theorem C3_partial_payment_stays_active (st : Ledger) (pre post : List Loan)
    (l : Loan) (loan_id : String) (amount : Int) (days_count : Nat)
    (payment_mode : String) (now : Nat)
    (hact : st.active = pre ++ l :: post)
    (hpre : ∀ x ∈ pre, x.Loan_ID ≠ loan_id) (hid : l.Loan_ID = loan_id)
    (hcomp : ∀ x ∈ st.completed, x.Loan_ID ≠ loan_id)
    (hgt : 0 < l.Remaining_Amount - amount) :
    ∃ st2, add_collection st loan_id amount days_count payment_mode now = .ok st2 ∧
      st2.active = pre ++ applyAmount amount l :: post ∧
      applyAmount amount l ∈ st2.active ∧
      st2.completed = st.completed ∧
      (∀ x ∈ st2.completed, x.Loan_ID ≠ loan_id) ∧
      (applyAmount amount l).Collected_Amount = l.Collected_Amount + amount ∧
      (applyAmount amount l).Remaining_Amount = l.Remaining_Amount - amount := by
  have hrem : ¬ (applyAmount amount l).Remaining_Amount ≤ 0 := by
    show ¬ l.Remaining_Amount - amount ≤ 0
    omega
  refine ⟨_, add_collection_partial st pre post l loan_id amount days_count
    payment_mode now hact hpre hid hrem, rfl, ?_, rfl, ?_, rfl, rfl⟩
  · show applyAmount amount l ∈ pre ++ applyAmount amount l :: post
    exact List.mem_append.2 (Or.inr (List.mem_cons_self _ _))
  · intro x hx
    exact hcomp x hx

theorem C3_partial_payment_stays_active_witness :
    (0 < loanA.Remaining_Amount - 400) ∧
    ∃ st2, add_collection ledgerA "L0001" 400 7 "Cash" 3 = .ok st2 ∧
      st2.active = [] ++ applyAmount 400 loanA :: [] ∧
      applyAmount 400 loanA ∈ st2.active ∧
      st2.completed = ledgerA.completed ∧
      (∀ x ∈ st2.completed, x.Loan_ID ≠ "L0001") ∧
      (applyAmount 400 loanA).Collected_Amount = loanA.Collected_Amount + 400 ∧
      (applyAmount 400 loanA).Remaining_Amount = loanA.Remaining_Amount - 400 :=
  ⟨by decide,
    C3_partial_payment_stays_active ledgerA [] [] loanA "L0001" 400 7 "Cash" 3
      rfl (by simp) rfl (by simp [ledgerA]) (by decide)⟩

/-- C4: for valid creation inputs, `add_loan` appends to the Active set a
loan with collected amount 0, remaining amount equal to the total, status
`"Active"`, end date equal to the creation date plus the term in days, and
returns the new identifier; the other two record sets are untouched. -/
theorem C4_add_loan_effect (st : Ledger) (party mobile : String)
    (total daily : Int) (days : Nat) (mode : String) (now : Nat)
    (_hparty : party ≠ "")
    (_hlen : mobile.length = 10)
    (_hdigits : mobile.data.all Char.isDigit = true)
    (_htotal : 0 < total) (_hdaily : 0 < daily) (_hdays : 1 ≤ days)
    (_hmode : mode ∈ ["Cash", "UPI", "Other"]) :
    (add_loan st party mobile total daily days mode now).1.active =
      st.active ++
        [{ Loan_ID := mkLoanId (st.active.length + st.completed.length + 1)
           Date := now
           Party_Name := party
           Mobile_Number := mobile
           Total_Amount := total
           Daily_Amount := daily
           Total_Days := days
           End_Date := now + days
           Payment_Mode := mode
           Collected_Amount := 0
           Remaining_Amount := total
           Status := "Active"
           Completion_Date := none }] ∧
    (add_loan st party mobile total daily days mode now).1.completed =
      st.completed ∧
    (add_loan st party mobile total daily days mode now).1.collections =
      st.collections ∧
    (add_loan st party mobile total daily days mode now).2 =
      mkLoanId (st.active.length + st.completed.length + 1) :=
  ⟨rfl, rfl, rfl, rfl⟩

theorem C4_add_loan_effect_witness :
    ("Ravi" ≠ "" ∧ ("9876543210" : String).length = 10 ∧
      ("9876543210" : String).data.all Char.isDigit = true ∧
      (0 : Int) < 1000 ∧ (0 : Int) < 100 ∧ 1 ≤ 10 ∧
      "Cash" ∈ ["Cash", "UPI", "Other"]) ∧
    ((add_loan emptyLedger "Ravi" "9876543210" 1000 100 10 "Cash" 0).1.active =
      emptyLedger.active ++
        [{ Loan_ID := mkLoanId (emptyLedger.active.length +
             emptyLedger.completed.length + 1)
           Date := 0
           Party_Name := "Ravi"
           Mobile_Number := "9876543210"
           Total_Amount := 1000
           Daily_Amount := 100
           Total_Days := 10
           End_Date := 0 + 10
           Payment_Mode := "Cash"
           Collected_Amount := 0
           Remaining_Amount := 1000
           Status := "Active"
           Completion_Date := none }] ∧
    (add_loan emptyLedger "Ravi" "9876543210" 1000 100 10 "Cash" 0).1.completed =
      emptyLedger.completed ∧
    (add_loan emptyLedger "Ravi" "9876543210" 1000 100 10 "Cash" 0).1.collections =
      emptyLedger.collections ∧
    (add_loan emptyLedger "Ravi" "9876543210" 1000 100 10 "Cash" 0).2 =
      mkLoanId (emptyLedger.active.length + emptyLedger.completed.length + 1)) :=
  ⟨⟨by decide, by decide, by decide, by decide, by decide, by decide, by decide⟩,
    C4_add_loan_effect emptyLedger "Ravi" "9876543210" 1000 100 10 "Cash" 0
      (by decide) (by decide) (by decide) (by decide) (by decide) (by decide)
      (by decide)⟩

/-- C5: a collection whose amount exceeds the remaining amount is neither
clamped nor rejected: both amount fields move by the full input amount, the
remaining amount goes negative, and the loan is moved to the Completed set
with that negative remaining amount. -/
theorem C5_overcollection_not_clamped (st : Ledger) (pre post : List Loan)
    (l : Loan) (loan_id : String) (amount : Int) (days_count : Nat)
    (payment_mode : String) (now : Nat)
    (hact : st.active = pre ++ l :: post)
    (hpre : ∀ x ∈ pre, x.Loan_ID ≠ loan_id) (hid : l.Loan_ID = loan_id)
    (hpost : ∀ x ∈ post, x.Loan_ID ≠ loan_id)
    (hlt : l.Remaining_Amount < amount) :
    ∃ st2, add_collection st loan_id amount days_count payment_mode now = .ok st2 ∧
      completeLoan now (applyAmount amount l) ∈ st2.completed ∧
      (applyAmount amount l).Collected_Amount = l.Collected_Amount + amount ∧
      (applyAmount amount l).Remaining_Amount = l.Remaining_Amount - amount ∧
      (applyAmount amount l).Remaining_Amount < 0 ∧
      (∀ x ∈ st2.active, x.Loan_ID ≠ loan_id) := by
  have hrem : (applyAmount amount l).Remaining_Amount ≤ 0 := by
    show l.Remaining_Amount - amount ≤ 0
    omega
  refine ⟨_, add_collection_completes st pre post l loan_id amount days_count
    payment_mode now hact hpre hid hrem, ?_, rfl, rfl, ?_, ?_⟩
  · show completeLoan now (applyAmount amount l) ∈
      st.completed ++ [completeLoan now (applyAmount amount l)]
    exact List.mem_append.2 (Or.inr (List.mem_cons_self _ _))
  · show l.Remaining_Amount - amount < 0
    omega
  · intro x hx
    have hx2 : x ∈ pre ++ post := hx
    rcases List.mem_append.1 hx2 with h2 | h2
    · exact hpre x h2
    · exact hpost x h2

theorem C5_overcollection_not_clamped_witness :
    (loanA.Remaining_Amount < 1500) ∧
    ∃ st2, add_collection ledgerA "L0001" 1500 2 "UPI" 4 = .ok st2 ∧
      completeLoan 4 (applyAmount 1500 loanA) ∈ st2.completed ∧
      (applyAmount 1500 loanA).Collected_Amount = loanA.Collected_Amount + 1500 ∧
      (applyAmount 1500 loanA).Remaining_Amount = loanA.Remaining_Amount - 1500 ∧
      (applyAmount 1500 loanA).Remaining_Amount < 0 ∧
      (∀ x ∈ st2.active, x.Loan_ID ≠ "L0001") :=
  ⟨by decide,
    C5_overcollection_not_clamped ledgerA [] [] loanA "L0001" 1500 2 "UPI" 4
      rfl (by simp) rfl (by simp) (by decide)⟩

/-- C6 counterexample: create a loan of total 5 and collect the full 5; the
loan lands in the Completed set with its status field still reading
`"Active"`, refuting the claim that completed loans' status reads
`"Completed"`. -/
theorem C6_status_counterexample :
    ¬ (∀ l ∈ (run emptyLedger
        [Op.give "Ravi" "9876543210" 5 1 5 "Cash" 0,
         Op.collect "L0001" 5 1 "Cash" 1]).completed, l.Status = "Completed") := by
  decide

/-- C6 (amended): the status field is written once at creation and never
updated, so after any sequence of operations every loan row — in the Active
set and in the Completed set alike — has status `"Active"`; for Active loans
it agrees with the record set, for Completed loans it does not. -/
theorem C6_status_field_stays_active :
    ∀ ops, statusAllActive (run emptyLedger ops) := by
  intro ops
  refine run_preserves statusAllActive statusAllActive_applyOp ops emptyLedger ?_
  constructor
  · intro l hl; simp [emptyLedger] at hl
  · intro l hl; simp [emptyLedger] at hl

/-- C7: a collection against an identifier carried by no Active loan fails
with `NotFoundError` and the persisted ledger is exactly as before the
call. -/
theorem C7_collection_not_found (st : Ledger) (loan_id : String) (amount : Int)
    (days_count : Nat) (payment_mode : String) (now : Nat)
    (habs : ∀ l ∈ st.active, l.Loan_ID ≠ loan_id) :
    add_collection st loan_id amount days_count payment_mode now =
      .error AppError.NotFoundError ∧
    applyOp st (.collect loan_id amount days_count payment_mode now) = st := by
  have h := collectFrom_eq_none loan_id amount now st.active habs
  have h1 : add_collection st loan_id amount days_count payment_mode now =
      .error AppError.NotFoundError := by
    unfold add_collection
    rw [h]
  exact ⟨h1, applyOp_collect_err st loan_id amount days_count payment_mode now
    AppError.NotFoundError h1⟩

theorem C7_collection_not_found_witness :
    (∀ l ∈ ledgerA.active, l.Loan_ID ≠ "L0002") ∧
    (add_collection ledgerA "L0002" 100 1 "Cash" 9 =
      .error AppError.NotFoundError ∧
    applyOp ledgerA (.collect "L0002" 100 1 "Cash" 9) = ledgerA) :=
  ⟨by decide,
    C7_collection_not_found ledgerA "L0002" 100 1 "Cash" 9 (by decide)⟩

/-- C8: loan identifiers created over any run of operations are pairwise
distinct, each one is `L` followed by the zero-padded successor of the
combined active-plus-completed count at creation time, and the first loan on
an empty ledger gets `"L0001"`. -/
theorem C8_loan_ids_sequential_distinct :
    (∀ ops, (runIds emptyLedger ops).Nodup) ∧
    (∀ st party mobile total daily days mode now,
      (add_loan st party mobile total daily days mode now).2 =
        mkLoanId (st.active.length + st.completed.length + 1)) ∧
    mkLoanId 1 = "L0001" :=
  ⟨fun ops => runIds_nodup ops emptyLedger,
    fun _ _ _ _ _ _ _ _ => rfl, rfl⟩

/-- C9: every successful `add_collection` appends exactly one collection
record — identifier `C` + zero-padded successor of the collection count,
the call's timestamp, the loan identifier, the loan's party name, the
amount, the days count and the payment mode — leaving all prior collection
records unchanged; on an empty collection set the identifier is
`"C00001"`. -/
theorem C9_collection_record_appended (st : Ledger) (pre post : List Loan)
    (l : Loan) (loan_id : String) (amount : Int) (days_count : Nat)
    (payment_mode : String) (now : Nat)
    (hact : st.active = pre ++ l :: post)
    (hpre : ∀ x ∈ pre, x.Loan_ID ≠ loan_id) (hid : l.Loan_ID = loan_id) :
    (add_collection st loan_id amount days_count payment_mode now).map
        Ledger.collections =
      .ok (st.collections ++
        [{ Collection_ID := mkCollectionId (st.collections.length + 1)
           Date := now
           Loan_ID := loan_id
           Party_Name := l.Party_Name
           Amount_Collected := amount
           Days_Count := days_count
           Payment_Mode := payment_mode }]) ∧
    mkCollectionId 1 = "C00001" := by
  constructor
  · rw [add_collection_found st pre post l loan_id amount days_count
      payment_mode now hact hpre hid]
    rfl
  · rfl

theorem C9_collection_record_appended_witness :
    (ledgerA.active = [] ++ loanA :: [] ∧ loanA.Loan_ID = "L0001") ∧
    ((add_collection ledgerA "L0001" 250 3 "UPI" 7).map Ledger.collections =
      .ok (ledgerA.collections ++
        [{ Collection_ID := mkCollectionId (ledgerA.collections.length + 1)
           Date := 7
           Loan_ID := "L0001"
           Party_Name := loanA.Party_Name
           Amount_Collected := 250
           Days_Count := 3
           Payment_Mode := "UPI" }]) ∧
    mkCollectionId 1 = "C00001") :=
  ⟨⟨rfl, rfl⟩,
    C9_collection_record_appended ledgerA [] [] loanA "L0001" 250 3 "UPI" 7
      rfl (by simp) rfl⟩

/-- C10: a successful `add_collection` leaves the combined count of Active
plus Completed loans unchanged (the completing loan is moved, never deleted
or duplicated), and `add_loan` increases it by exactly one. -/
theorem C10_loan_count_conserved (st st2 : Ledger) (loan_id : String)
    (amount : Int) (days_count : Nat) (payment_mode : String)
    (party mobile : String) (total daily : Int) (days : Nat) (mode : String)
    (now now2 : Nat)
    (h : add_collection st loan_id amount days_count payment_mode now = .ok st2) :
    loanCount st2 = loanCount st ∧
    loanCount (add_loan st party mobile total daily days mode now2).1 =
      loanCount st + 1 := by
  constructor
  · obtain ⟨act, mv, l0, hcf, ha, hcm, _⟩ :=
      add_collection_ok st loan_id amount days_count payment_mode now st2 h
    obtain ⟨_, _, _, _, hlen⟩ := collectFrom_mem loan_id amount now _ _ _ _ hcf
    simp only [loanCount, ha, hcm, List.length_append]
    omega
  · exact loanCount_add_loan st party mobile total daily days mode now2

theorem C10_loan_count_conserved_witness :
    add_collection ledgerA "L0001" 400 1 "Cash" 2 =
      .ok { active := [applyAmount 400 loanA]
            completed := []
            collections :=
              [{ Collection_ID := mkCollectionId 1
                 Date := 2
                 Loan_ID := "L0001"
                 Party_Name := "Ravi"
                 Amount_Collected := 400
                 Days_Count := 1
                 Payment_Mode := "Cash" }] } ∧
    (loanCount { active := [applyAmount 400 loanA]
                 completed := []
                 collections :=
                   [{ Collection_ID := mkCollectionId 1
                      Date := 2
                      Loan_ID := "L0001"
                      Party_Name := "Ravi"
                      Amount_Collected := 400
                      Days_Count := 1
                      Payment_Mode := "Cash" }] } = loanCount ledgerA ∧
    loanCount (add_loan ledgerA "Asha" "9123456780" 500 50 10 "UPI" 3).1 =
      loanCount ledgerA + 1) :=
  ⟨rfl,
    C10_loan_count_conserved ledgerA _ "L0001" 400 1 "Cash" "Asha" "9123456780"
      500 50 10 "UPI" 2 3 rfl⟩

end DCT
